import Mathlib

/-!
Verification development for the agent-alignment-framework core
(`agent_alignment/core/models.py`, `resolution.py`, `hitl.py`, `evaluator.py`).

Python values carried in `decision_value` fields are embedded as the
inductive `PyVal`; numeric computation is modelled exactly over `ℚ`.
Presentation-only fields (rationale templates with rounded float
formatting, metadata snapshots, timestamps, uuid-based request ids) and
event-sink callbacks are omitted from the embedded records: no claim
refers to them and they do not feed back into any computed field.
-/

/-- Embedding of the Python values that can appear as a `decision_value`:
booleans, numbers (int/float, modelled exactly as rationals), strings and
lists.  Python's `bool` is a subclass of `int`; the helpers below encode
that. -/
inductive PyVal : Type where
  | bool (b : Bool)
  | num (q : ℚ)
  | str (s : String)
  | list (xs : List PyVal)

/-- Python `isinstance(v, (int, float))`.  `True`/`False` pass because
`bool` is a subclass of `int` in Python. -/
def PyVal.is_int_or_float : PyVal → Bool
  | .bool _ => true
  | .num _ => true
  | .str _ => false
  | .list _ => false

/-- Python `isinstance(v, bool)`. -/
def PyVal.is_bool : PyVal → Bool
  | .bool _ => true
  | _ => false

/-- Numeric value of a `PyVal` in arithmetic context
(`True` counts as 1, `False` as 0; non-numbers never reach arithmetic in
the embedded code paths). -/
def PyVal.toNum : PyVal → ℚ
  | .bool b => if b then 1 else 0
  | .num q => q
  | _ => 0

mutual
/-- Python `==` on embedded values (`True == 1` holds; values of
unrelated shapes compare unequal; lists compare elementwise). -/
def pyEq : PyVal → PyVal → Bool
  | .bool a, .bool b => a == b
  | .bool a, .num q => (if a then (1 : ℚ) else 0) == q
  | .num q, .bool a => q == (if a then (1 : ℚ) else 0)
  | .num a, .num b => a == b
  | .str a, .str b => a == b
  | .list a, .list b => pyEqList a b
  | _, _ => false
termination_by structural v _ => v

/-- Elementwise Python `==` on lists. -/
def pyEqList : List PyVal → List PyVal → Bool
  | [], [] => true
  | x :: xs, y :: ys => pyEq x y && pyEqList xs ys
  | _, _ => false
termination_by structural v _ => v
end

mutual
/-- Python `repr(v)`: strings gain single quotes, booleans render as
`True`/`False`, numbers via their decimal form (modelled by `toString`
on `ℚ`; the int/float rendering difference, e.g. `5` vs `5.0`, is not
representable because `PyVal.num` carries one exact rational), lists via
`repr` of their elements inside brackets. -/
def pyRepr : PyVal → String
  | .bool b => if b then "True" else "False"
  | .num q => toString q
  | .str s => "\x27" ++ s ++ "\x27"
  | .list xs => "[" ++ ", ".intercalate (pyReprList xs) ++ "]"
termination_by structural v => v

/-- `repr` of each element of a list. -/
def pyReprList : List PyVal → List String
  | [] => []
  | x :: xs => pyRepr x :: pyReprList xs
termination_by structural v => v
end

/-- Python `str(v)`: as `repr(v)` except that strings render as
themselves, without quotes. -/
def pyStr : PyVal → String
  | .bool b => if b then "True" else "False"
  | .num q => toString q
  | .str s => s
  | .list xs => "[" ++ ", ".intercalate (pyReprList xs) ++ "]"

/-- Python `str.lower()` (character-wise lowercasing; the embedded
inputs are ASCII). -/
def py_lower (s : String) : String := String.mk (s.data.map Char.toLower)

/-- Drop leading whitespace characters from a character list. -/
def drop_leading_ws : List Char → List Char
  | [] => []
  | c :: cs => if c.isWhitespace then drop_leading_ws cs else c :: cs

/-- Python `str.strip()`: remove whitespace from both ends. -/
def py_strip (s : String) : String :=
  String.mk ((drop_leading_ws (drop_leading_ws s.data).reverse).reverse)

/-- Worker for Python `str.split()` with no separator: split on runs of
whitespace and drop empty words.  `acc` holds the reversed characters of
the word currently being read. -/
def split_ws_aux : List Char → List Char → List String
  | [], acc => if acc.isEmpty then [] else [String.mk acc.reverse]
  | c :: cs, acc =>
      if c.isWhitespace then
        if acc.isEmpty then split_ws_aux cs []
        else String.mk acc.reverse :: split_ws_aux cs []
      else split_ws_aux cs (c :: acc)

/-- Python `str.split()` with no separator. -/
def py_split_ws (s : String) : List String := split_ws_aux s.data []

/-- The closed set of decision schemas from `models.py`
(`BooleanDecisionSchema`, `CategoricalDecisionSchema`,
`ScalarDecisionSchema`, `FreeFormDecisionSchema`). -/
inductive DecisionSchema : Type where
  | boolean (positive_label negative_label : String)
  | categorical (categories : List String) (allow_multiple : Bool)
  | scalar (min_value max_value : ℚ)
  | freeform (min_length max_length : Option Nat)

/-- `validate_decision` of each schema class in `models.py`:
boolean requires `isinstance(decision, bool)`; categorical with
`allow_multiple` requires a list all of whose items are `in categories`,
otherwise `decision in categories`; scalar requires
`isinstance(decision, (int, float))` and `min_value <= decision <=
max_value`; free-form requires a string within the optional length
bounds. -/
def DecisionSchema.validate_decision : DecisionSchema → PyVal → Bool
  | .boolean _ _, v => v.is_bool
  | .categorical categories allow_multiple, v =>
      if allow_multiple then
        match v with
        | .list items => items.all (fun item => categories.any (fun c => pyEq item (.str c)))
        | _ => false
      else
        categories.any (fun c => pyEq v (.str c))
  | .scalar min_value max_value, v =>
      if ¬ v.is_int_or_float then false
      else decide (min_value ≤ v.toNum) && decide (v.toNum ≤ max_value)
  | .freeform min_length max_length, v =>
      match v with
      | .str s =>
          (match min_length with
           | some m => decide (m ≤ s.length)
           | none => true) &&
          (match max_length with
           | some m => decide (s.length ≤ m)
           | none => true)
      | _ => false

/-- `AgentDecision` from `models.py` (fields consulted by the alignment
core; `processing_time_ms` and `metadata` are opaque and omitted). -/
structure AgentDecision : Type where
  agent_name : String
  role_type : String
  decision_value : PyVal
  confidence : ℚ
  rationale : String
  evidence : List String

/-- `AlignmentThresholds` from `resolution.py`: its `__init__` stores the
seven numeric fields verbatim and performs no range validation. -/
structure AlignmentThresholds : Type where
  soft_disagreement_confidence_spread : ℚ
  hard_disagreement_confidence_spread : ℚ
  insufficient_signal_avg_confidence : ℚ
  min_confidence_for_consensus : ℚ
  scalar_decision_tolerance_ratio : ℚ
  reasoning_overlap_threshold : ℚ
  minority_dominance_threshold : ℚ

/-- `AlignmentThresholds.__init__` (`resolution.py` lines 39-66): plain
assignment of every argument to its field, with no validation and no
possibility of failure. -/
def AlignmentThresholds.init (a b c d e f g : ℚ) : AlignmentThresholds :=
  { soft_disagreement_confidence_spread := a
    hard_disagreement_confidence_spread := b
    insufficient_signal_avg_confidence := c
    min_confidence_for_consensus := d
    scalar_decision_tolerance_ratio := e
    reasoning_overlap_threshold := f
    minority_dominance_threshold := g }

/-- The default argument values of `AlignmentThresholds.__init__`. -/
def default_thresholds : AlignmentThresholds :=
  AlignmentThresholds.init 0.2 0.4 0.5 0.7 0.1 0.3 0.4

/-- `AlignmentState` from `models.py`. -/
inductive AlignmentState : Type where
  | full_alignment
  | soft_disagreement
  | hard_disagreement
  | insufficient_signal
deriving DecidableEq

/-- The `.value` of each `AlignmentState` enum member. -/
def AlignmentState.value : AlignmentState → String
  | .full_alignment => "full_alignment"
  | .soft_disagreement => "soft_disagreement"
  | .hard_disagreement => "hard_disagreement"
  | .insufficient_signal => "insufficient_signal"

/-- `AlignmentSummary` from `models.py`, restricted to the computed
fields (the `resolution_rationale` presentation string and the
`metadata` snapshot are not consulted by any embedded function).
`confidence_distribution` models the Python dict as an association list
in insertion order. -/
structure AlignmentSummary : Type where
  state : AlignmentState
  alignment_score : ℚ
  decision_agreement : Bool
  confidence_spread : ℚ
  confidence_distribution : List (String × ℚ)
  avg_confidence : ℚ
  dissenting_agents : List String
  disagreement_areas : List String
  consensus_strength : ℚ
deriving DecidableEq

/-- Python dict assignment `m[k] = v`: replaces the value in place when
the key is present (keeping its original position) and appends the pair
otherwise. -/
def dict_insert (m : List (String × ℚ)) (k : String) (v : ℚ) : List (String × ℚ) :=
  if m.any (fun p => p.1 = k) then
    m.map (fun p => if p.1 = k then (p.1, v) else p)
  else m ++ [(k, v)]

/-- The dict comprehension
`{d.agent_name: d.confidence for d in agent_decisions}` from
`analyze_alignment` (`resolution.py` line 195): first occurrence fixes
the position of a key, the last occurrence fixes its value. -/
def confidence_distribution_of (ds : List AgentDecision) : List (String × ℚ) :=
  ds.foldl (fun m d => dict_insert m d.agent_name d.confidence) []

/-- Arithmetic mean of a list of rationals (`statistics.mean`; the
Python function raises on an empty list, which no embedded call site
reaches). -/
def mean_of (xs : List ℚ) : ℚ := xs.sum / xs.length

/-- Result record of `AlignmentAnalyzer._calculate_confidence_metrics`. -/
structure ConfidenceMetrics : Type where
  average : ℚ
  spread : ℚ
  min : ℚ
  max : ℚ

/-- `AlignmentAnalyzer._calculate_confidence_metrics`
(`resolution.py` lines 288-319).  The `[]` case is unreachable
(`analyze_alignment` requires at least two decisions; `statistics.mean`
would raise there). -/
def calculate_confidence_metrics (ds : List AgentDecision) : ConfidenceMetrics :=
  match ds.map (fun d => d.confidence) with
  | [] => ⟨0, 0, 0, 0⟩
  | c :: cs =>
      if cs.isEmpty then ⟨c, 0, c, c⟩
      else
        let lo := cs.foldl min c
        let hi := cs.foldl max c
        ⟨(c :: cs).sum / (c :: cs).length, hi - lo, lo, hi⟩

/-- Membership test of Python `len(set(xs)) == 1` for a list built from
a generator: true iff the list is non-empty and all elements are equal
to the first under the given equality. -/
def all_same_by {α : Type} (eq : α → α → Bool) : List α → Bool
  | [] => false
  | x :: xs => xs.all (eq x)

/-- `AlignmentAnalyzer._analyze_decision_agreement`
(`resolution.py` lines 241-286), dispatching on the schema variant.
Boolean uses Python set equality over raw values, categorical over
`str(d)`, scalar checks each value against the tolerance band around the
mean, free-form compares `str(d).lower().strip()`.  (The defensive
`else` branch for unknown schema classes is unreachable in the closed
variant.) -/
def analyze_decision_agreement (th : AlignmentThresholds)
    (schema : DecisionSchema) (ds : List AgentDecision) : Bool :=
  let decisions := ds.map (fun d => d.decision_value)
  match schema with
  | .boolean _ _ => all_same_by pyEq decisions
  | .categorical _ _ => all_same_by (· == ·) (decisions.map pyStr)
  | .scalar min_value max_value =>
      if decisions.length < 2 then true
      else
        let decision_range := max_value - min_value
        let tolerance := decision_range * th.scalar_decision_tolerance_ratio
        let mean_decision := mean_of (decisions.map PyVal.toNum)
        decisions.all (fun d => decide (|d.toNum - mean_decision| ≤ tolerance))
  | .freeform _ _ => all_same_by (· == ·) (decisions.map (fun d => py_strip (py_lower (pyStr d))))

/-- `AlignmentAnalyzer._identify_dissenting_agents`
(`resolution.py` lines 321-354): group agent names by `str(decision_value)`
in insertion order, take the group with the largest supporting list
(Python's `max` keeps the first maximal entry), and return, in input
order, the names not in that group. -/
def identify_dissenting_agents (_schema : DecisionSchema)
    (ds : List AgentDecision) : List String :=
  if ds.length < 2 then []
  else
    let decision_counts : List (String × List String) :=
      ds.foldl (fun m d =>
        let key := pyStr d.decision_value
        if m.any (fun p => p.1 = key) then
          m.map (fun p => if p.1 = key then (p.1, p.2 ++ [d.agent_name]) else p)
        else m ++ [(key, [d.agent_name])]) []
    match decision_counts with
    | [] => []
    | c :: cs =>
        let majority := cs.foldl (fun best y => if best.2.length < y.2.length then y else best) c
        (ds.filter (fun d => ¬ majority.2.contains d.agent_name)).map (fun d => d.agent_name)

/-- Insert into an insertion-ordered set (no-op when present). -/
def set_insert (s : List String) (x : String) : List String :=
  if s.contains x then s else s ++ [x]

/-- Python `set(xs)` over strings, as an insertion-ordered duplicate-free
list. -/
def list_to_set (xs : List String) : List String := xs.foldl set_insert []

/-- Python `a.intersection(b)` on the set representation. -/
def set_inter (a b : List String) : List String := a.filter (fun x => b.contains x)

/-- Python `a.union(b)` on the set representation. -/
def set_union (a b : List String) : List String :=
  a ++ b.filter (fun x => ¬ a.contains x)

/-- Keyword set of one rationale, from
`AlignmentAnalyzer._calculate_reasoning_overlap`: whitespace-split
tokens of length > 3, lowercased and stripped, collected into a set. -/
def rationale_keywords (r : String) : List String :=
  list_to_set (((py_split_ws r).filter
    (fun w => 3 < w.length)).map (fun w => py_strip (py_lower w)))

/-- `AlignmentAnalyzer._calculate_reasoning_overlap`
(`resolution.py` lines 396-429): intersection over union of the agents'
rationale keyword sets; 1.0 below two decisions; 0.0 when the union is
empty. -/
def calculate_reasoning_overlap (ds : List AgentDecision) : ℚ :=
  if ds.length < 2 then 1
  else
    match ds.map (fun d => rationale_keywords d.rationale) with
    | [] => 0
    | k :: ks =>
        let common_keywords := ks.foldl set_inter k
        let all_keywords := ks.foldl set_union k
        if all_keywords.isEmpty then 0
        else (common_keywords.length : ℚ) / all_keywords.length

/-- Sample variance (the square of `statistics.stdev`, which divides by
n − 1) of a list of rationals. -/
def sample_variance (xs : List ℚ) : ℚ :=
  let n : ℚ := xs.length
  let m := xs.sum / n
  (xs.map (fun x => (x - m) ^ 2)).sum / (n - 1)

/-- Decides `_calculate_evidence_consistency(ds) < 0.5`
(`resolution.py` lines 431-457 compared against the constant
`evidence_threshold = 0.5` at line 390-391).  The source computes
`consistency = max(0, 1 − stdev/mean)` over the evidence-list lengths;
since `0 < 0.5`, `max(0, x) < 0.5` iff `x < 0.5`, i.e. iff
`stdev > mean/2`, and with `mean > 0` and `stdev = sqrt(variance)` that
holds iff `variance > mean²/4` — decided exactly over `ℚ` without a
square root.  Below two decisions consistency is 1.0; a zero mean of the
(non-negative) lengths forces all lengths zero, where the source returns
1.0. -/
def evidence_consistency_below_half (ds : List AgentDecision) : Bool :=
  if ds.length < 2 then false
  else
    let evidence_lengths : List ℚ := ds.map (fun d => (d.evidence.length : ℚ))
    let mean_length := mean_of evidence_lengths
    if mean_length = 0 then false
    else decide (sample_variance evidence_lengths > mean_length ^ 2 / 4)

/-- True iff Python `len(set(xs)) > 1`: some element differs from the
first. -/
def has_two_distinct (xs : List String) : Bool :=
  match xs with
  | [] => false
  | x :: rest => ¬ rest.all (fun y => y == x)

/-- `AlignmentAnalyzer._detect_disagreement_areas`
(`resolution.py` lines 356-394), appending the four area tags in source
order when their conditions hold. -/
def detect_disagreement_areas (th : AlignmentThresholds)
    (ds : List AgentDecision) (cm : ConfidenceMetrics) : List String :=
  (if has_two_distinct (ds.map (fun d => pyStr d.decision_value)) then ["primary_decision"] else []) ++
  (if cm.spread > th.soft_disagreement_confidence_spread then ["confidence_levels"] else []) ++
  (if calculate_reasoning_overlap ds < th.reasoning_overlap_threshold then ["reasoning_approach"] else []) ++
  (if evidence_consistency_below_half ds then ["evidence_quality"] else [])

/-- `AlignmentAnalyzer._calculate_alignment_score`
(`resolution.py` lines 459-497): 0.4 for decision agreement, plus 0.3
times `max(0, 1 − spread/1.0)`, plus 0.3 times
`1 − dissenters/(dissenters + 1)`, clamped into `[0, 1]`. -/
def calculate_alignment_score (decision_agreement : Bool)
    (cm : ConfidenceMetrics) (dissenting_agents : List String) : ℚ :=
  let score : ℚ := if decision_agreement then 0.4 else 0
  let confidence_consistency := max 0 (1 - cm.spread / 1)
  let score := score + 0.3 * confidence_consistency
  let total_agents : ℚ := (dissenting_agents.length : ℚ) + 1
  let consensus_breadth := 1 - (dissenting_agents.length : ℚ) / total_agents
  let score := score + 0.3 * consensus_breadth
  min 1 (max 0 score)

/-- `AlignmentAnalyzer._determine_alignment_state`
(`resolution.py` lines 499-539): insufficient signal, then hard
disagreement, then soft disagreement, then full alignment.  The
`dissenting_agents` argument is accepted but unused, as in the source. -/
def determine_alignment_state (th : AlignmentThresholds)
    (decision_agreement : Bool) (cm : ConfidenceMetrics)
    (disagreement_areas : List String) (_dissenting_agents : List String) : AlignmentState :=
  if cm.average < th.insufficient_signal_avg_confidence then
    .insufficient_signal
  else if ¬ decision_agreement ∨ cm.spread > th.hard_disagreement_confidence_spread ∨
      3 ≤ disagreement_areas.length then
    .hard_disagreement
  else if cm.spread > th.soft_disagreement_confidence_spread ∨ 1 ≤ disagreement_areas.length then
    .soft_disagreement
  else
    .full_alignment

/-- `AlignmentAnalyzer._calculate_consensus_strength`
(`resolution.py` lines 578-596). -/
def calculate_consensus_strength (_decision_agreement : Bool)
    (cm : ConfidenceMetrics) (alignment_score : ℚ) : ℚ :=
  alignment_score * cm.average

/-- `AlignmentAnalyzer.analyze_alignment` (`resolution.py` lines
120-222).  The task argument is represented by its decision schema (the
only task field the computation consults; `task_id` only reaches the
event sink).  Fewer than two decisions raise `ValueError` in the source,
modelled as `none`. -/
def analyze_alignment (th : AlignmentThresholds) (schema : DecisionSchema)
    (agent_decisions : List AgentDecision) : Option AlignmentSummary :=
  if agent_decisions.length < 2 then none
  else
    let decision_agreement := analyze_decision_agreement th schema agent_decisions
    let confidence_metrics := calculate_confidence_metrics agent_decisions
    let dissenting_agents := identify_dissenting_agents schema agent_decisions
    let disagreement_areas := detect_disagreement_areas th agent_decisions confidence_metrics
    let alignment_score := calculate_alignment_score decision_agreement confidence_metrics dissenting_agents
    let alignment_state := determine_alignment_state th decision_agreement confidence_metrics
      disagreement_areas dissenting_agents
    let consensus_strength := calculate_consensus_strength decision_agreement confidence_metrics alignment_score
    some
      { state := alignment_state
        alignment_score := alignment_score
        decision_agreement := decision_agreement
        confidence_spread := confidence_metrics.spread
        confidence_distribution := confidence_distribution_of agent_decisions
        avg_confidence := confidence_metrics.average
        dissenting_agents := dissenting_agents
        disagreement_areas := disagreement_areas
        consensus_strength := consensus_strength }

/-- Fold used by Python `max(xs, key=f)` over a non-empty list: keep the
current best unless the candidate is strictly greater, so the first
maximal element wins ties. -/
def max_by_first {α : Type} (f : α → ℚ) (x : α) (xs : List α) : α :=
  xs.foldl (fun best y => if f best < f y then y else best) x

/-- `DisagreementResolver._resolve_boolean_decision`
(`resolution.py` lines 666-702), decision component: the sign of the
confidence-weighted vote between decisions that are identically `True`
and identically `False` (ties yield `False`).  The returned confidence,
reasoning template and evidence selection do not feed into the decision
and are not modelled. -/
def resolve_boolean_decision (agent_decisions : List AgentDecision) : PyVal :=
  let weighted_true : ℚ := ((agent_decisions.filter
    (fun d => match d.decision_value with | .bool true => true | _ => false)).map
      (fun d => d.confidence)).sum
  let weighted_false : ℚ := ((agent_decisions.filter
    (fun d => match d.decision_value with | .bool false => true | _ => false)).map
      (fun d => d.confidence)).sum
  .bool (decide (weighted_false < weighted_true))

/-- One step of building the categorical score dict
(`category_scores[category] = category_scores.get(category, 0.0) +
decision_obj.confidence` in `_resolve_categorical_decision`). -/
def category_score_step (m : List (String × ℚ)) (d : AgentDecision) : List (String × ℚ) :=
  if m.any (fun p => p.1 = pyStr d.decision_value) then
    m.map (fun p => if p.1 = pyStr d.decision_value then (p.1, p.2 + d.confidence) else p)
  else m ++ [(pyStr d.decision_value, d.confidence)]

/-- The confidence-weighted score per `str(decision_value)` key, in
insertion order. -/
def category_scores (agent_decisions : List AgentDecision) : List (String × ℚ) :=
  agent_decisions.foldl category_score_step []

/-- `DisagreementResolver._resolve_categorical_decision`
(`resolution.py` lines 704-743), decision component: sum confidences per
`str(decision_value)` key in insertion order and return the key with the
highest weighted score (first maximal wins, as with Python `max`).  The
`[]` case is unreachable (`max` over an empty dict raises). -/
def resolve_categorical_decision (agent_decisions : List AgentDecision) : PyVal :=
  match category_scores agent_decisions with
  | [] => .str ""
  | s :: ss => .str (max_by_first (fun p => p.2) s ss).1

/-- `DisagreementResolver._resolve_scalar_decision`
(`resolution.py` lines 745-785), decision component: the
confidence-weighted average of the decision values, or their plain mean
when the total weight is zero. -/
def resolve_scalar_decision (agent_decisions : List AgentDecision) : PyVal :=
  let total_weight := (agent_decisions.map (fun d => d.confidence)).sum
  if total_weight = 0 then
    .num (mean_of (agent_decisions.map (fun d => d.decision_value.toNum)))
  else
    .num ((agent_decisions.map (fun d => d.decision_value.toNum * d.confidence)).sum / total_weight)

/-- `DisagreementResolver._resolve_freeform_decision`
(`resolution.py` lines 787-829), decision component:
`str(decision_value)` of the highest-confidence agent (first maximal
wins).  The `[]` case is unreachable (`max` over an empty sequence
raises). -/
def resolve_freeform_decision (agent_decisions : List AgentDecision) : PyVal :=
  match agent_decisions with
  | [] => .str ""
  | d :: ds => .str (pyStr (max_by_first (fun a => a.confidence) d ds).decision_value)

/-- `DisagreementResolver.resolve_disagreement`
(`resolution.py` lines 614-664), decision component: dispatch on the
schema variant.  The alignment summary only supplies the returned
confidence (`consensus_strength`), not the decision, so it is not a
parameter here; the defensive fallback for unknown schema classes is
unreachable in the closed variant. -/
def resolve_disagreement (schema : DecisionSchema)
    (agent_decisions : List AgentDecision) : PyVal :=
  match schema with
  | .boolean _ _ => resolve_boolean_decision agent_decisions
  | .categorical _ _ => resolve_categorical_decision agent_decisions
  | .scalar _ _ => resolve_scalar_decision agent_decisions
  | .freeform _ _ => resolve_freeform_decision agent_decisions

/-- `HITLEscalationReason` from `hitl.py`. -/
inductive HITLEscalationReason : Type where
  | hard_disagreement
  | low_confidence
  | inconsistent_evidence
  | custom_rule
deriving DecidableEq

/-- `EvaluationResult` from `models.py`, restricted to the fields read
by `build_hitl_request` (the synthesized decision, reasoning, evidence
and timing fields flow only into the omitted metadata/summary
strings). -/
structure EvaluationResult : Type where
  task_id : String
  requires_human_review : Bool
  agent_decisions : List AgentDecision

/-- `HITLRequest` from `hitl.py`, restricted to the deterministic
fields (`request_id` embeds a fresh uuid, `created_at` a wall-clock
timestamp, and `summary`/`metadata` are presentation payloads; none is
consulted by any claim). -/
structure HITLRequest : Type where
  task_id : String
  alignment_state : String
  alignment_score : ℚ
  escalation_reason : HITLEscalationReason
  agent_decisions : List AgentDecision
  dissenting_agents : List String

/-- `_determine_escalation_reason` (`hitl.py` lines 224-252): maps the
alignment state's string value to an escalation reason, distinguishing
soft disagreement by whether `"evidence_quality"` is among the
disagreement areas. -/
def determine_escalation_reason (alignment_summary : AlignmentSummary) : HITLEscalationReason :=
  if alignment_summary.state.value = "hard_disagreement" then
    .hard_disagreement
  else if alignment_summary.state.value = "insufficient_signal" then
    .low_confidence
  else if alignment_summary.state.value = "soft_disagreement" then
    if alignment_summary.disagreement_areas.contains "evidence_quality" then
      .inconsistent_evidence
    else
      .low_confidence
  else
    .custom_rule

/-- `build_hitl_request` (`hitl.py` lines 141-221): returns `None` when
`requires_human_review` is false, and otherwise assembles the request
record (the source's remaining steps — summary template, uuid request
id, timestamp, event emission — always succeed). -/
def build_hitl_request (evaluation_result : EvaluationResult)
    (alignment_summary : AlignmentSummary) : Option HITLRequest :=
  if ¬ evaluation_result.requires_human_review then none
  else
    some
      { task_id := evaluation_result.task_id
        alignment_state := alignment_summary.state.value
        alignment_score := alignment_summary.alignment_score
        escalation_reason := determine_escalation_reason alignment_summary
        agent_decisions := evaluation_result.agent_decisions
        dissenting_agents := alignment_summary.dissenting_agents }

/-- The failure kinds named by the agent contract.  The orchestrator's
`except Exception` clause in `_execute_agent_with_retry` cannot observe
the kind; the embedding carries it to state properties about it. -/
inductive FailureKind : Type where
  | transientFailure
  | permanentFailure
  | invalidTask
deriving DecidableEq

/-- One loop iteration state of
`MultiAgentEvaluator._execute_agent_with_retry` (`evaluator.py` lines
313-347): `fuel` counts the remaining iterations of
`for attempt in range(max_retries)`, `i` is the next attempt index and
`last` the `last_error` variable.  Every exception — of any kind — is
caught and the loop simply proceeds to the next attempt (after a
back-off sleep, which has no effect on the result); when the range is
exhausted a `RuntimeError` carrying the last error is raised, modelled
as `Except.error last`. -/
def retry_go (agent_eval : Nat → Except FailureKind AgentDecision) :
    Nat → Nat → Option FailureKind → Except (Option FailureKind) AgentDecision
  | 0, _, last => .error last
  | fuel + 1, i, _last =>
      match agent_eval i with
      | .ok d => .ok d
      | .error e => retry_go agent_eval fuel (i + 1) (some e)

/-- `MultiAgentEvaluator._execute_agent_with_retry`: run the attempt
loop from attempt 0 with no recorded error.  `agent_eval i` is the
outcome of the agent's i-th `evaluate(task)` call. -/
def execute_agent_with_retry (max_retries : Nat)
    (agent_eval : Nat → Except FailureKind AgentDecision) :
    Except (Option FailureKind) AgentDecision :=
  retry_go agent_eval max_retries 0 none

/-- Number of `agent.evaluate(task)` calls performed by the same loop
(instrumentation of `retry_go`: one call per iteration reached). -/
def retry_attempts (agent_eval : Nat → Except FailureKind AgentDecision) :
    Nat → Nat → Nat
  | 0, _ => 0
  | fuel + 1, i =>
      match agent_eval i with
      | .ok _ => 1
      | .error _ => 1 + retry_attempts agent_eval fuel (i + 1)

/-- Total number of attempts `_execute_agent_with_retry` makes. -/
def retry_attempts_used (max_retries : Nat)
    (agent_eval : Nat → Except FailureKind AgentDecision) : Nat :=
  retry_attempts agent_eval max_retries 0

/-- A boolean evaluation schema used in concrete instantiations. -/
def schemaB : DecisionSchema := .boolean "positive" "negative"

/-- A categorical schema with `allow_multiple = True` over two
categories. -/
def catM : DecisionSchema := .categorical ["a", "b"] true

/-- Concrete agreeing decision of agent_a (boolean `True`,
confidence 0.9). -/
def dW1 : AgentDecision :=
  ⟨"agent_a", "advocate", .bool true, 0.9, "consistent reasoning alignment", ["evidence-one"]⟩

/-- Concrete agreeing decision of agent_b (boolean `True`,
confidence 0.9). -/
def dW2 : AgentDecision :=
  ⟨"agent_b", "skeptic", .bool true, 0.9, "consistent reasoning alignment", ["evidence-one"]⟩

/-- Two decisions sharing the agent name "agent_a" with confidences 0
and 1. -/
def dDup1 : AgentDecision :=
  ⟨"agent_a", "advocate", .bool true, 0, "consistent reasoning alignment", ["evidence-one"]⟩

/-- Second decision under the duplicated name "agent_a". -/
def dDup2 : AgentDecision :=
  ⟨"agent_a", "skeptic", .bool true, 1, "consistent reasoning alignment", ["evidence-one"]⟩

/-- Multi-select decision listing the categories as a, b. -/
def dL1 : AgentDecision :=
  ⟨"agent_a", "advocate", .list [.str "a", .str "b"], 0.9, "consistent reasoning alignment", ["evidence-one"]⟩

/-- Multi-select decision listing the same categories as b, a. -/
def dL2 : AgentDecision :=
  ⟨"agent_b", "skeptic", .list [.str "b", .str "a"], 0.9, "consistent reasoning alignment", ["evidence-one"]⟩

/-- Placeholder summary used only as the default of `Option.getD`. -/
def empty_summary : AlignmentSummary :=
  { state := .full_alignment, alignment_score := 0, decision_agreement := false
    confidence_spread := 0, confidence_distribution := [], avg_confidence := 0
    dissenting_agents := [], disagreement_areas := [], consensus_strength := 0 }

/-- The summary the analyser produces for the two agreeing boolean
decisions. -/
def aligned_summary : AlignmentSummary :=
  (analyze_alignment default_thresholds schemaB [dW1, dW2]).getD empty_summary

/-- The summary the analyser produces for the duplicated-agent-name
input. -/
def dup_name_summary : AlignmentSummary :=
  (analyze_alignment default_thresholds schemaB [dDup1, dDup2]).getD empty_summary

/-- The summary the analyser produces for the two order-permuted
multi-select decisions. -/
def permuted_summary : AlignmentSummary :=
  (analyze_alignment default_thresholds catM [dL1, dL2]).getD empty_summary

/-- An evaluation result flagged for human review. -/
def review_result : EvaluationResult := ⟨"task-1", true, [dW1, dW2]⟩

/-- A soft-disagreement summary whose areas include evidence_quality. -/
def soft_evidence_summary : AlignmentSummary :=
  { state := .soft_disagreement, alignment_score := 0.6, decision_agreement := true
    confidence_spread := 0.25, confidence_distribution := [("agent_a", 0.9), ("agent_b", 0.65)]
    avg_confidence := 0.775, dissenting_agents := []
    disagreement_areas := ["confidence_levels", "evidence_quality"], consensus_strength := 0.5 }

/-- The HITL request built for `review_result` and
`soft_evidence_summary`. -/
def soft_evidence_request : HITLRequest :=
  (build_hitl_request review_result soft_evidence_summary).getD
    ⟨"", "", 0, .custom_rule, [], []⟩

/-- An agent-evaluation trace that raises a `PermanentFailure` on its
first attempt and succeeds on every later one. -/
def perm_fail_then_ok : Nat → Except FailureKind AgentDecision :=
  fun i => if i = 0 then .error .permanentFailure else .ok dW1

/-- C1: for every thresholds configuration, task schema and list of at
least two agent decisions, if the summary returned by
`analyze_alignment` has state FULL_ALIGNMENT then its
`decision_agreement` field is true and its `disagreement_areas` list is
empty. -/
theorem full_alignment_forces_agreement_and_empty_areas
    (th : AlignmentThresholds) (schema : DecisionSchema) (ds : List AgentDecision)
    (s : AlignmentSummary)
    (hs : analyze_alignment th schema ds = some s)
    (hstate : s.state = AlignmentState.full_alignment) :
    s.decision_agreement = true ∧ s.disagreement_areas = [] := by
  unfold analyze_alignment at hs
  split at hs
  · exact absurd hs (by simp)
  · rw [Option.some.injEq] at hs
    subst hs
    simp only at hstate ⊢
    unfold determine_alignment_state at hstate
    split at hstate
    · exact absurd hstate (by simp)
    · split at hstate
      · exact absurd hstate (by simp)
      · split at hstate
        · exact absurd hstate (by simp)
        · rename_i hhard hsoft
          push_neg at hhard hsoft
          refine ⟨by simpa using hhard.1, ?_⟩
          have hlen : (detect_disagreement_areas th ds
              (calculate_confidence_metrics ds)).length = 0 :=
            Nat.lt_one_iff.mp hsoft.2
          exact List.eq_nil_of_length_eq_zero hlen

/-- C1 witness: two agreeing boolean decisions with confidence 0.9 and
matching rationales reach FULL_ALIGNMENT, and the theorem yields
agreement with no disagreement areas there. -/
theorem full_alignment_forces_agreement_and_empty_areas_witness :
    aligned_summary.decision_agreement = true ∧ aligned_summary.disagreement_areas = [] :=
  full_alignment_forces_agreement_and_empty_areas default_thresholds schemaB [dW1, dW2]
    aligned_summary (by with_unfolding_all decide) (by with_unfolding_all decide)

/-- C3: for every evaluation result and alignment summary,
`build_hitl_request` returns nothing exactly when
`requires_human_review` is false; when it is true the (total) builder
always returns a request. -/
theorem build_hitl_request_none_iff_no_review
    (evaluation_result : EvaluationResult) (alignment_summary : AlignmentSummary) :
    build_hitl_request evaluation_result alignment_summary = none ↔
      evaluation_result.requires_human_review = false := by
  unfold build_hitl_request
  cases h : evaluation_result.requires_human_review <;> simp [h]

/-- C4: whenever `build_hitl_request` returns a request, its escalation
reason is the fixed mapping of the summary state: hard disagreement to
HARD_DISAGREEMENT, insufficient signal to LOW_CONFIDENCE, soft
disagreement to INCONSISTENT_EVIDENCE when evidence_quality is among the
disagreement areas and LOW_CONFIDENCE otherwise, and any other state
(full alignment) to CUSTOM_RULE. -/
theorem hitl_escalation_reason_mapping
    (evaluation_result : EvaluationResult) (alignment_summary : AlignmentSummary)
    (r : HITLRequest)
    (hr : build_hitl_request evaluation_result alignment_summary = some r) :
    r.escalation_reason =
      (match alignment_summary.state with
       | .hard_disagreement => .hard_disagreement
       | .insufficient_signal => .low_confidence
       | .soft_disagreement =>
           if alignment_summary.disagreement_areas.contains "evidence_quality" then
             .inconsistent_evidence
           else .low_confidence
       | .full_alignment => .custom_rule) := by
  unfold build_hitl_request at hr
  split at hr
  · exact absurd hr (by simp)
  · rw [Option.some.injEq] at hr
    subst hr
    simp only
    unfold determine_escalation_reason
    cases h : alignment_summary.state <;>
      simp [AlignmentState.value, h]

/-- C4 witness: for a soft-disagreement summary whose areas include
evidence_quality and a result flagged for review, the built request's
escalation reason is INCONSISTENT_EVIDENCE. -/
theorem hitl_escalation_reason_mapping_witness :
    soft_evidence_request.escalation_reason = HITLEscalationReason.inconsistent_evidence :=
  (hitl_escalation_reason_mapping review_result soft_evidence_summary
    soft_evidence_request (by rfl)).trans (by rfl)

/-- C6: the alignment score of every summary produced by
`analyze_alignment` equals the fixed-weight formula
0.4·I(decision_agreement) + 0.3·max(0, 1 − spread) +
0.3·(1 − dissenters/(dissenters + 1)), clamped to the unit interval,
stated over the summary's own fields. -/
theorem alignment_score_formula
    (th : AlignmentThresholds) (schema : DecisionSchema) (ds : List AgentDecision)
    (s : AlignmentSummary)
    (hs : analyze_alignment th schema ds = some s) :
    s.alignment_score =
      min 1 (max 0
        (0.4 * (if s.decision_agreement then (1 : ℚ) else 0)
          + 0.3 * max 0 (1 - s.confidence_spread)
          + 0.3 * (1 - (s.dissenting_agents.length : ℚ) / ((s.dissenting_agents.length : ℚ) + 1)))) := by
  unfold analyze_alignment at hs
  split at hs
  · exact absurd hs (by simp)
  · rw [Option.some.injEq] at hs
    subst hs
    simp only
    unfold calculate_alignment_score
    cases analyze_decision_agreement th schema ds <;>
      simp only [Bool.false_eq_true, eq_self_iff_true, if_true, if_false, div_one] <;>
      ring_nf

/-- C6 witness: on the two duplicated-name boolean decisions with
confidences 0 and 1, the produced score satisfies the formula at its
concrete field values. -/
theorem alignment_score_formula_witness :
    dup_name_summary.alignment_score =
      min 1 (max 0
        (0.4 * (if dup_name_summary.decision_agreement then (1 : ℚ) else 0)
          + 0.3 * max 0 (1 - dup_name_summary.confidence_spread)
          + 0.3 * (1 - (dup_name_summary.dissenting_agents.length : ℚ)
              / ((dup_name_summary.dissenting_agents.length : ℚ) + 1)))) :=
  alignment_score_formula default_thresholds schemaB [dDup1, dDup2] dup_name_summary
    (by with_unfolding_all decide)

/-- Modelled from the spec (§4.3): the range conditions the thresholds
record is claimed to validate — every threshold in [0,1] and the scalar
decision tolerance ratio in (0,1].  Used only to compare the source
constructor against the spec's words. -/
def thresholds_in_spec_range (t : AlignmentThresholds) : Prop :=
  0 ≤ t.soft_disagreement_confidence_spread ∧ t.soft_disagreement_confidence_spread ≤ 1 ∧
  0 ≤ t.hard_disagreement_confidence_spread ∧ t.hard_disagreement_confidence_spread ≤ 1 ∧
  0 ≤ t.insufficient_signal_avg_confidence ∧ t.insufficient_signal_avg_confidence ≤ 1 ∧
  0 ≤ t.min_confidence_for_consensus ∧ t.min_confidence_for_consensus ≤ 1 ∧
  0 < t.scalar_decision_tolerance_ratio ∧ t.scalar_decision_tolerance_ratio ≤ 1 ∧
  0 ≤ t.reasoning_overlap_threshold ∧ t.reasoning_overlap_threshold ≤ 1 ∧
  0 ≤ t.minority_dominance_threshold ∧ t.minority_dominance_threshold ≤ 1

instance (t : AlignmentThresholds) : Decidable (thresholds_in_spec_range t) := by
  unfold thresholds_in_spec_range; infer_instance

/-- C9 counterexample: constructing the thresholds record with a
tolerance ratio of 5 — far outside (0,1] — does not fail; the
constructor returns a record carrying the out-of-range value verbatim,
so construction succeeds where the claim says it must fail. -/
theorem thresholds_init_accepts_out_of_range :
    (AlignmentThresholds.init 0.2 0.4 0.5 0.7 5 0.3 0.4).scalar_decision_tolerance_ratio = 5 ∧
    ¬ thresholds_in_spec_range (AlignmentThresholds.init 0.2 0.4 0.5 0.7 5 0.3 0.4) := by
  refine ⟨rfl, fun h => ?_⟩
  have h10 := h.2.2.2.2.2.2.2.2.2.1
  norm_num [AlignmentThresholds.init] at h10

/-- C9 (amended): the thresholds constructor performs no validation —
it stores any argument values verbatim and always succeeds — while the
source's default values do all lie in the spec ranges ([0,1], tolerance
ratio in (0,1]). -/
theorem thresholds_init_stores_verbatim_and_defaults_in_range :
    (∀ a b c d e f g : ℚ,
      (AlignmentThresholds.init a b c d e f g).soft_disagreement_confidence_spread = a ∧
      (AlignmentThresholds.init a b c d e f g).hard_disagreement_confidence_spread = b ∧
      (AlignmentThresholds.init a b c d e f g).insufficient_signal_avg_confidence = c ∧
      (AlignmentThresholds.init a b c d e f g).min_confidence_for_consensus = d ∧
      (AlignmentThresholds.init a b c d e f g).scalar_decision_tolerance_ratio = e ∧
      (AlignmentThresholds.init a b c d e f g).reasoning_overlap_threshold = f ∧
      (AlignmentThresholds.init a b c d e f g).minority_dominance_threshold = g) ∧
    thresholds_in_spec_range default_thresholds := by
  refine ⟨fun a b c d e f g => ⟨rfl, rfl, rfl, rfl, rfl, rfl, rfl⟩, ?_⟩
  unfold thresholds_in_spec_range default_thresholds AlignmentThresholds.init
  norm_num

/-- C10: `ScalarDecisionSchema.validate_decision` accepts Python
booleans because bool is a subclass of int: `True` validates whenever
min_value ≤ 1 ≤ max_value and `False` whenever min_value ≤ 0 ≤
max_value. -/
theorem scalar_validate_accepts_python_bools (mn mx : ℚ) :
    (mn ≤ 1 → 1 ≤ mx →
      (DecisionSchema.scalar mn mx).validate_decision (.bool true) = true) ∧
    (mn ≤ 0 → 0 ≤ mx →
      (DecisionSchema.scalar mn mx).validate_decision (.bool false) = true) := by
  constructor <;> intro h1 h2 <;>
    simp [DecisionSchema.validate_decision, PyVal.is_int_or_float, PyVal.toNum, h1, h2]

/-- C10 witness: on the unit-interval scalar schema both Python
booleans validate. -/
theorem scalar_validate_accepts_python_bools_witness :
    (DecisionSchema.scalar 0 1).validate_decision (.bool true) = true ∧
    (DecisionSchema.scalar 0 1).validate_decision (.bool false) = true :=
  ⟨(scalar_validate_accepts_python_bools 0 1).1 (by norm_num) (by norm_num),
   (scalar_validate_accepts_python_bools 0 1).2 (by norm_num) (by norm_num)⟩

/-- Key lemma for the retry loop: when all attempts up to index `i + n`
fail (with any mix of failure kinds) and enough loop iterations remain,
the loop reaches attempt `i + n + 1` and returns its successful
decision.  The loop never inspects the failure kind. -/
theorem retry_go_skips_failed_attempts
    (agent_eval : Nat → Except FailureKind AgentDecision) (d : AgentDecision) :
    ∀ (n fuel i : Nat) (last : Option FailureKind),
      n + 1 < fuel →
      (∀ j, j ≤ n → ∃ k, agent_eval (i + j) = .error k) →
      agent_eval (i + n + 1) = .ok d →
      retry_go agent_eval fuel i last = .ok d := by
  intro n
  induction n with
  | zero =>
      intro fuel i last hfuel hfail hok
      match fuel, hfuel with
      | fuel + 2, _ =>
        obtain ⟨k, hk⟩ := hfail 0 (Nat.le_refl 0)
        rw [Nat.add_zero] at hk
        unfold retry_go
        rw [hk]
        unfold retry_go
        rw [show i + 1 = i + 0 + 1 by omega] at hok ⊢
        rw [hok]
  | succ n ih =>
      intro fuel i last hfuel hfail hok
      match fuel, hfuel with
      | fuel + 1, hfuel =>
        obtain ⟨k, hk⟩ := hfail 0 (Nat.zero_le _)
        rw [Nat.add_zero] at hk
        unfold retry_go
        rw [hk]
        refine ih fuel (i + 1) (some k) (by omega) ?_ ?_
        · intro j hj
          obtain ⟨k2, hk2⟩ := hfail (j + 1) (by omega)
          exact ⟨k2, by rw [show i + 1 + j = i + (j + 1) by omega]; exact hk2⟩
        · rw [show i + 1 + n + 1 = i + (n + 1) + 1 by omega]
          exact hok

/-- C5 counterexample: an agent whose first attempt raises a
PermanentFailure is attempted again by `_execute_agent_with_retry`
(2 attempts are made under max_retries = 3 and the run succeeds),
so a PermanentFailure is not terminal for the agent, contradicting the
claim that such failures cause no further attempts. -/
theorem retry_does_not_stop_on_permanent_failure :
    perm_fail_then_ok 0 = .error FailureKind.permanentFailure ∧
    execute_agent_with_retry 3 perm_fail_then_ok = .ok dW1 ∧
    retry_attempts_used 3 perm_fail_then_ok = 2 :=
  ⟨rfl, rfl, rfl⟩

/-- C5 (amended): the orchestrator's retry loop treats every failure
alike — a failed attempt is retried regardless of its kind
(TransientFailure, PermanentFailure and InvalidTask included) as long as
attempts remain within max_retries; no failure kind is terminal before
the budget is exhausted.  Stated as: whenever all attempts up to n fail
with arbitrary kinds and attempt n + 1 < max_retries succeeds, the
orchestrator returns that success. -/
theorem retry_continues_after_any_failure_kind
    (max_retries : Nat) (agent_eval : Nat → Except FailureKind AgentDecision)
    (n : Nat) (d : AgentDecision)
    (hlt : n + 1 < max_retries)
    (hfail : ∀ j, j ≤ n → ∃ k, agent_eval j = .error k)
    (hok : agent_eval (n + 1) = .ok d) :
    execute_agent_with_retry max_retries agent_eval = .ok d := by
  unfold execute_agent_with_retry
  refine retry_go_skips_failed_attempts agent_eval d n max_retries 0 none hlt ?_ ?_
  · intro j hj
    simpa using hfail j hj
  · simpa using hok

/-- C5 witness: the amended statement applied to the concrete trace
that fails permanently once and then succeeds, under max_retries = 3. -/
theorem retry_continues_after_any_failure_kind_witness :
    execute_agent_with_retry 3 perm_fail_then_ok = .ok dW1 :=
  retry_continues_after_any_failure_kind 3 perm_fail_then_ok 0 dW1 (by omega)
    (fun j hj => ⟨.permanentFailure, by
      have hj0 : j = 0 := Nat.le_zero.mp hj
      rw [hj0]; rfl⟩)
    (by rfl)

/-- When the pending agent names are absent from the accumulator and
pairwise distinct, the dict-building fold appends one pair per
decision. -/
theorem dict_fold_insert_nodup (ds : List AgentDecision) :
    ∀ acc : List (String × ℚ),
      (∀ d ∈ ds, ∀ p ∈ acc, p.1 ≠ d.agent_name) →
      (ds.map (fun d => d.agent_name)).Nodup →
      ds.foldl (fun m d => dict_insert m d.agent_name d.confidence) acc
        = acc ++ ds.map (fun d => (d.agent_name, d.confidence)) := by
  induction ds with
  | nil => intro acc _ _; simp
  | cons d rest ih =>
      intro acc hdisj hnd
      have hkey : acc.any (fun p => decide (p.1 = d.agent_name)) = false := by
        rw [List.any_eq_false]
        intro p hp
        simpa using hdisj d (List.mem_cons_self d rest) p hp
      have hstep : dict_insert acc d.agent_name d.confidence
          = acc ++ [(d.agent_name, d.confidence)] := by
        unfold dict_insert
        simp only [hkey]
        rfl
      rw [List.foldl_cons, hstep,
        ih (acc ++ [(d.agent_name, d.confidence)]) ?_ (by simpa using hnd.of_cons)]
      · simp
      · intro d2 hd2 p hp
        rcases List.mem_append.mp hp with hpacc | hpnew
        · exact hdisj d2 (List.mem_cons_of_mem d hd2) p hpacc
        · have hp1 : p.1 = d.agent_name := by
            rcases List.mem_singleton.mp hpnew with rfl
            rfl
          rw [hp1]
          have hpair : (∀ x ∈ rest, ¬ x.agent_name = d.agent_name) ∧
              (rest.map (fun d => d.agent_name)).Nodup := by simpa using hnd
          intro heq
          exact hpair.1 d2 hd2 heq.symm

/-- With pairwise-distinct agent names, the confidence-distribution
dict is exactly one entry per decision, in input order. -/
theorem confidence_distribution_nodup_eq (ds : List AgentDecision)
    (hnd : (ds.map (fun d => d.agent_name)).Nodup) :
    confidence_distribution_of ds = ds.map (fun d => (d.agent_name, d.confidence)) := by
  unfold confidence_distribution_of
  simpa using dict_fold_insert_nodup ds [] (by simp) hnd

/-- C7 (amended): `avg_confidence` is the arithmetic mean of the input
decisions' confidences; it equals the mean of the values of
`confidence_distribution` whenever the agent names are pairwise
distinct.  When two decisions share an agent name, the dict
comprehension collapses them (last value wins) and the identity fails
(see the counterexample). -/
theorem avg_confidence_is_mean_of_distribution_values
    (th : AlignmentThresholds) (schema : DecisionSchema) (ds : List AgentDecision)
    (s : AlignmentSummary)
    (hnd : (ds.map (fun d => d.agent_name)).Nodup)
    (hs : analyze_alignment th schema ds = some s) :
    s.avg_confidence = mean_of (s.confidence_distribution.map Prod.snd) := by
  unfold analyze_alignment at hs
  split at hs
  · exact absurd hs (by simp)
  · rename_i hlen
    rw [Option.some.injEq] at hs
    subst hs
    simp only
    rw [confidence_distribution_nodup_eq ds hnd, List.map_map]
    obtain ⟨a, rest, rfl⟩ : ∃ a rest, ds = a :: rest := by
      cases ds with
      | nil => simp at hlen
      | cons a rest => exact ⟨a, rest, rfl⟩
    obtain ⟨b, t, rfl⟩ : ∃ b t, rest = b :: t := by
      cases rest with
      | nil => simp at hlen
      | cons b t => exact ⟨b, t, rfl⟩
    have hcomp : (a :: b :: t).map (Prod.snd ∘ fun d => (d.agent_name, d.confidence))
        = (a :: b :: t).map (fun d => d.confidence) := rfl
    rw [hcomp]
    simp [calculate_confidence_metrics, mean_of]

/-- C7 counterexample: with two decisions both named agent_a carrying
confidences 0 and 1, the analyser's `avg_confidence` is 1/2 while the
mean of the values of `confidence_distribution` is 1 — the dict kept
only the later entry for the duplicated name. -/
theorem avg_confidence_mismatch_on_duplicate_names :
    dup_name_summary.avg_confidence ≠
      mean_of (dup_name_summary.confidence_distribution.map Prod.snd) := by
  with_unfolding_all decide

/-- C7 witness: on two decisions with distinct names the identity
holds. -/
theorem avg_confidence_is_mean_of_distribution_values_witness :
    aligned_summary.avg_confidence =
      mean_of (aligned_summary.confidence_distribution.map Prod.snd) :=
  avg_confidence_is_mean_of_distribution_values default_thresholds schemaB [dW1, dW2]
    aligned_summary (by decide) (by with_unfolding_all decide)

/-- C8 (amended): for categorical schemas (multi-select included) the
analyser's agreement test is equality of the Python string
representations of the raw decision values; it is order-sensitive, so
two decisions whose string representations differ — as with the same
categories listed in different orders — are reported as
`decision_agreement = false`. -/
theorem categorical_agreement_is_string_representation_equality
    (th : AlignmentThresholds) (categories : List String) (allow_multiple : Bool)
    (d1 d2 : AgentDecision) (s : AlignmentSummary)
    (hne : pyStr d1.decision_value ≠ pyStr d2.decision_value)
    (hs : analyze_alignment th (.categorical categories allow_multiple) [d1, d2] = some s) :
    s.decision_agreement = false := by
  unfold analyze_alignment at hs
  split at hs
  · exact absurd hs (by simp)
  · rw [Option.some.injEq] at hs
    subst hs
    simp only
    unfold analyze_decision_agreement
    simp [all_same_by, hne]

/-- C8 counterexample: the two multi-select decisions listing the same
categories in orders a,b and b,a are analysed as disagreement —
`decision_agreement = false`, where the claim requires true. -/
theorem permuted_categories_reported_as_disagreement :
    (analyze_alignment default_thresholds catM [dL1, dL2]).map
      (fun s => s.decision_agreement) = some false := by
  with_unfolding_all decide

/-- C8 witness: the amended statement at the concrete permuted
decisions. -/
theorem categorical_agreement_is_string_representation_equality_witness :
    permuted_summary.decision_agreement = false :=
  categorical_agreement_is_string_representation_equality default_thresholds
    ["a", "b"] true dL1 dL2 permuted_summary (by decide) (by with_unfolding_all decide)

/-- A left fold whose step keeps either the accumulator or the new
element ends in the initial element or the list. -/
theorem foldl_pick_mem {α : Type} (g : α → α → α)
    (hg : ∀ a b, g a b = a ∨ g a b = b) (x : α) (xs : List α) :
    xs.foldl g x ∈ x :: xs := by
  induction xs generalizing x with
  | nil => simp
  | cons y ys ih =>
      rw [List.foldl_cons]
      rcases List.mem_cons.mp (ih (g x y)) with h | h
      · rw [h]
        rcases hg x y with h2 | h2
        · rw [h2]
          exact List.mem_cons_self x (y :: ys)
        · rw [h2]
          exact List.mem_cons_of_mem x (List.mem_cons_self y ys)
      · exact List.mem_cons_of_mem x (List.mem_cons_of_mem y h)

/-- Python's first-maximal `max` selects an element of its input. -/
theorem max_by_first_mem {α : Type} (f : α → ℚ) (x : α) (xs : List α) :
    max_by_first f x xs ∈ x :: xs := by
  unfold max_by_first
  refine foldl_pick_mem _ (fun a b => ?_) x xs
  dsimp only
  split
  · exact Or.inr rfl
  · exact Or.inl rfl

/-- One dict step preserves where keys can come from: an existing key
of the accumulator or `str()` of the new decision's value. -/
theorem category_score_step_keys (m : List (String × ℚ)) (d : AgentDecision)
    (p : String × ℚ) (hp : p ∈ category_score_step m d) :
    p.1 ∈ m.map Prod.fst ∨ p.1 = pyStr d.decision_value := by
  unfold category_score_step at hp
  split at hp
  · obtain ⟨q, hq, hpe⟩ := List.mem_map.mp hp
    left
    have hfst : p.1 = q.1 := by
      rw [← hpe]
      split
      · rfl
      · rfl
    rw [hfst]
    exact List.mem_map_of_mem Prod.fst hq
  · rcases List.mem_append.mp hp with hm | hone
    · left
      exact List.mem_map_of_mem Prod.fst hm
    · right
      rcases List.mem_singleton.mp hone with rfl
      rfl

/-- Every key of the categorical score dict is `str()` of some decision
value of the folded list (or was already a key of the accumulator). -/
theorem category_scores_fold_keys (ds : List AgentDecision) :
    ∀ (acc : List (String × ℚ)) (p : String × ℚ),
      p ∈ ds.foldl category_score_step acc →
      p.1 ∈ acc.map Prod.fst ∨ ∃ d ∈ ds, p.1 = pyStr d.decision_value := by
  induction ds with
  | nil =>
      intro acc p hp
      left
      exact List.mem_map_of_mem Prod.fst hp
  | cons d rest ih =>
      intro acc p hp
      rw [List.foldl_cons] at hp
      rcases ih (category_score_step acc d) p hp with h | h
      · obtain ⟨q, hq, hfst⟩ := List.mem_map.mp h
        rcases category_score_step_keys acc d q hq with h2 | h2
        · left
          rw [← hfst]
          exact h2
        · right
          exact ⟨d, List.mem_cons_self d rest, by rw [← hfst]; exact h2⟩
      · obtain ⟨d2, hd2, he⟩ := h
        exact Or.inr ⟨d2, List.mem_cons_of_mem d hd2, he⟩

/-- The dict step never shrinks the dict. -/
theorem category_score_step_length (m : List (String × ℚ)) (d : AgentDecision) :
    m.length ≤ (category_score_step m d).length := by
  unfold category_score_step
  split
  · rw [List.length_map]
  · simp

/-- Folding more decisions never shrinks the dict. -/
theorem category_scores_fold_length (ds : List AgentDecision) :
    ∀ acc : List (String × ℚ), acc.length ≤ (ds.foldl category_score_step acc).length := by
  induction ds with
  | nil => intro acc; simp
  | cons d rest ih =>
      intro acc
      rw [List.foldl_cons]
      exact le_trans (category_score_step_length acc d) (ih _)

/-- With at least one decision the score dict is non-empty. -/
theorem category_scores_ne_nil (d : AgentDecision) (rest : List AgentDecision) :
    category_scores (d :: rest) ≠ [] := by
  have h1 : 1 ≤ (category_scores (d :: rest)).length := by
    unfold category_scores
    rw [List.foldl_cons]
    have hstep : 1 ≤ (category_score_step [] d).length := by
      unfold category_score_step
      simp
    exact le_trans hstep (category_scores_fold_length rest _)
  intro h
  rw [h] at h1
  simp at h1

/-- Characterisation of single-select categorical validation: the value
must be the string of one of the categories. -/
theorem validate_categorical_single_iff (categories : List String) (v : PyVal) :
    (DecisionSchema.categorical categories false).validate_decision v = true ↔
      ∃ c ∈ categories, v = .str c := by
  unfold DecisionSchema.validate_decision
  simp only [Bool.false_eq_true, if_false, List.any_eq_true]
  constructor
  · rintro ⟨c, hc, hpy⟩
    cases v with
    | bool b => simp [pyEq] at hpy
    | num q => simp [pyEq] at hpy
    | str s =>
        refine ⟨c, hc, ?_⟩
        simp [pyEq] at hpy
        rw [hpy]
    | list xs => simp [pyEq] at hpy
  · rintro ⟨c, hc, rfl⟩
    exact ⟨c, hc, by simp [pyEq]⟩

/-- Sum of a list bounded elementwise is bounded by length times the
bounds. -/
theorem sum_bounds_of_mem (xs : List ℚ) (mn mx : ℚ)
    (h : ∀ x ∈ xs, mn ≤ x ∧ x ≤ mx) :
    mn * xs.length ≤ xs.sum ∧ xs.sum ≤ mx * xs.length := by
  induction xs with
  | nil => simp
  | cons x t ih =>
      have hx := h x (List.mem_cons_self x t)
      have ht := ih (fun y hy => h y (List.mem_cons_of_mem x hy))
      simp only [List.sum_cons, List.length_cons]
      push_cast
      constructor <;> nlinarith [hx.1, hx.2, ht.1, ht.2]

/-- The arithmetic mean of a non-empty elementwise-bounded list lies
within the bounds. -/
theorem mean_of_bounds (xs : List ℚ) (mn mx : ℚ) (hne : xs ≠ [])
    (h : ∀ x ∈ xs, mn ≤ x ∧ x ≤ mx) :
    mn ≤ mean_of xs ∧ mean_of xs ≤ mx := by
  have hlen : 0 < (xs.length : ℚ) := by
    have := List.length_pos.mpr hne
    exact_mod_cast this
  have hs := sum_bounds_of_mem xs mn mx h
  unfold mean_of
  constructor
  · rw [le_div_iff₀ hlen]
    linarith [hs.1]
  · rw [div_le_iff₀ hlen]
    linarith [hs.2]

/-- A confidence-weighted sum of elementwise-bounded values is bounded
by the bounds times the total weight. -/
theorem weighted_sum_bounds (ds : List AgentDecision) (mn mx : ℚ)
    (h : ∀ d ∈ ds, 0 ≤ d.confidence ∧ mn ≤ d.decision_value.toNum ∧ d.decision_value.toNum ≤ mx) :
    mn * (ds.map (fun d => d.confidence)).sum ≤
      (ds.map (fun d => d.decision_value.toNum * d.confidence)).sum ∧
    (ds.map (fun d => d.decision_value.toNum * d.confidence)).sum ≤
      mx * (ds.map (fun d => d.confidence)).sum := by
  induction ds with
  | nil => simp
  | cons d t ih =>
      have hd := h d (List.mem_cons_self d t)
      have ht := ih (fun y hy => h y (List.mem_cons_of_mem d hy))
      simp only [List.map_cons, List.sum_cons]
      constructor <;>
        nlinarith [mul_le_mul_of_nonneg_right hd.2.1 hd.1,
          mul_le_mul_of_nonneg_right hd.2.2 hd.1, ht.1, ht.2]

/-- Scalar validation unpacked: the value is numeric (ints, floats or
bools) and its numeric reading lies in the range. -/
theorem validate_scalar_bounds (mn mx : ℚ) (v : PyVal)
    (h : (DecisionSchema.scalar mn mx).validate_decision v = true) :
    mn ≤ v.toNum ∧ v.toNum ≤ mx := by
  simp only [DecisionSchema.validate_decision] at h
  split at h
  · exact absurd h (by simp)
  · simpa using h

/-- A free-form-valid value is a string, and `str()` of it validates
again (it is the same string). -/
theorem validate_freeform_pyStr (a b : Option Nat) (v : PyVal)
    (h : (DecisionSchema.freeform a b).validate_decision v = true) :
    (DecisionSchema.freeform a b).validate_decision (.str (pyStr v)) = true := by
  cases v with
  | bool bv => exact absurd h (by simp [DecisionSchema.validate_decision])
  | num q => exact absurd h (by simp [DecisionSchema.validate_decision])
  | str s => exact h
  | list xs => exact absurd h (by simp [DecisionSchema.validate_decision])

/-- C2 (amended): for boolean, single-select categorical, scalar and
free-form schemas, the decision synthesised by `resolve_disagreement`
from a non-empty list of schema-valid decisions is itself schema-valid.
For a categorical schema with allow_multiple the property fails: the
resolver keys its vote on `str(decision_value)` and returns that string,
which the schema rejects because it is not a list (see the
counterexample). -/
theorem resolve_disagreement_preserves_validation
    (schema : DecisionSchema) (ds : List AgentDecision)
    (hne : 0 < ds.length)
    (hconf : ∀ d ∈ ds, 0 ≤ d.confidence)
    (hval : ∀ d ∈ ds, schema.validate_decision d.decision_value = true)
    (hsingle : ∀ categories, schema ≠ DecisionSchema.categorical categories true) :
    schema.validate_decision (resolve_disagreement schema ds) = true := by
  cases schema with
  | boolean positive_label negative_label =>
      simp [resolve_disagreement, resolve_boolean_decision,
        DecisionSchema.validate_decision, PyVal.is_bool]
  | categorical categories allow_multiple =>
      cases allow_multiple with
      | true => exact absurd rfl (hsingle categories)
      | false =>
          obtain ⟨d0, rest, rfl⟩ : ∃ d0 rest, ds = d0 :: rest := by
            cases ds with
            | nil => simp at hne
            | cons d0 rest => exact ⟨d0, rest, rfl⟩
          obtain ⟨s0, ss, hcs⟩ : ∃ s0 ss, category_scores (d0 :: rest) = s0 :: ss := by
            rcases hl : category_scores (d0 :: rest) with _ | ⟨s0, ss⟩
            · exact absurd hl (category_scores_ne_nil d0 rest)
            · exact ⟨s0, ss, rfl⟩
          have hres : resolve_disagreement (.categorical categories false) (d0 :: rest)
              = .str (max_by_first (fun p => p.2) s0 ss).1 := by
            unfold resolve_disagreement resolve_categorical_decision
            rw [hcs]
          rw [hres]
          have hmem : max_by_first (fun p => p.2) s0 ss ∈
              (d0 :: rest).foldl category_score_step [] := by
            have h1 : max_by_first (fun p => p.2) s0 ss ∈ s0 :: ss := max_by_first_mem _ _ _
            rw [← hcs] at h1
            exact h1
          rcases category_scores_fold_keys (d0 :: rest) [] _ hmem with h | ⟨d, hd, hkeyeq⟩
          · simp at h
          · obtain ⟨c, hc, hvc⟩ :=
              (validate_categorical_single_iff categories d.decision_value).mp (hval d hd)
            rw [hkeyeq, hvc]
            exact (validate_categorical_single_iff categories _).mpr ⟨c, hc, rfl⟩
  | scalar mn mx =>
      have hbounds : ∀ d ∈ ds, 0 ≤ d.confidence ∧
          mn ≤ d.decision_value.toNum ∧ d.decision_value.toNum ≤ mx := by
        intro d hd
        obtain ⟨h1, h2⟩ := validate_scalar_bounds mn mx d.decision_value (hval d hd)
        exact ⟨hconf d hd, h1, h2⟩
      simp only [resolve_disagreement, resolve_scalar_decision]
      split
      · have hmb := mean_of_bounds (ds.map (fun d => d.decision_value.toNum)) mn mx
          (by
            intro hnil
            rw [List.map_eq_nil_iff] at hnil
            rw [hnil] at hne
            simp at hne)
          (by
            intro x hx
            obtain ⟨d, hd, rfl⟩ := List.mem_map.mp hx
            exact ⟨(hbounds d hd).2.1, (hbounds d hd).2.2⟩)
        simp [DecisionSchema.validate_decision, PyVal.is_int_or_float]
        exact ⟨hmb.1, hmb.2⟩
      · rename_i htw
        have hw := weighted_sum_bounds ds mn mx hbounds
        have h0 : 0 ≤ (ds.map (fun d => d.confidence)).sum :=
          List.sum_nonneg (by
            intro x hx
            obtain ⟨d, hd, rfl⟩ := List.mem_map.mp hx
            exact hconf d hd)
        have hpos : 0 < (ds.map (fun d => d.confidence)).sum := lt_of_le_of_ne h0 (Ne.symm htw)
        have hle1 : mn ≤ (ds.map (fun d => d.decision_value.toNum * d.confidence)).sum /
            (ds.map (fun d => d.confidence)).sum := by
          rw [le_div_iff₀ hpos]
          linarith [hw.1]
        have hle2 : (ds.map (fun d => d.decision_value.toNum * d.confidence)).sum /
            (ds.map (fun d => d.confidence)).sum ≤ mx := by
          rw [div_le_iff₀ hpos]
          linarith [hw.2]
        simp [DecisionSchema.validate_decision, PyVal.is_int_or_float]
        exact ⟨hle1, hle2⟩
  | freeform a b =>
      obtain ⟨d0, rest, rfl⟩ : ∃ d0 rest, ds = d0 :: rest := by
        cases ds with
        | nil => simp at hne
        | cons d0 rest => exact ⟨d0, rest, rfl⟩
      have hres : resolve_disagreement (.freeform a b) (d0 :: rest)
          = .str (pyStr (max_by_first (fun x => x.confidence) d0 rest).decision_value) := rfl
      rw [hres]
      exact validate_freeform_pyStr a b _ (hval _ (max_by_first_mem _ d0 rest))

/-- C2 counterexample: for the multi-select categorical schema over
a, b, the single schema-valid decision [a] synthesises to the string
representation of the list, which the schema rejects (it is not a
list), so the resolved decision fails `validate_decision`. -/
theorem resolve_categorical_multiple_breaks_validation :
    0 < [dL1].length ∧
    (∀ d ∈ [dL1], catM.validate_decision d.decision_value = true) ∧
    catM.validate_decision (resolve_disagreement catM [dL1]) = false := by
  with_unfolding_all decide

/-- C2 witness: the amended statement at the boolean schema with the
two agreeing decisions. -/
theorem resolve_disagreement_preserves_validation_witness :
    schemaB.validate_decision (resolve_disagreement schemaB [dW1, dW2]) = true :=
  resolve_disagreement_preserves_validation schemaB [dW1, dW2] (by decide)
    (by with_unfolding_all decide) (by with_unfolding_all decide)
    (fun categories => by
      intro h
      simp [schemaB] at h)
